import Mathlib

/-
Verification development for gcal_trisync.py, a batch reconciliation engine
that keeps several calendar replicas consistent.  The Python source is
shallowly embedded below: pure helpers become Lean functions, the gateway
(network) calls become an abstract Gateway record of total functions plus a
failure oracle, and each loop of the program becomes a structural recursion
that returns the list of attempted write operations together with the log
lines it prints and a flag telling whether it finished without an uncaught
exception.
-/

namespace GcalTrisync

/-! ## String primitives modelling the Python built-ins used by the source -/

/-- Whitespace test used to model the Python str.strip method. -/
def isSpaceChar (c : Char) : Bool :=
  c = ' ' || c = '\t' || c = '\n' || c = '\r'

/-- Model of the Python str.strip method: drop whitespace at both ends. -/
def pyStrip (s : String) : String :=
  String.mk (((s.toList.dropWhile isSpaceChar).reverse.dropWhile isSpaceChar).reverse)

/-- Model of the Python str.lower method: characterwise lowercasing. -/
def lowerStr (s : String) : String :=
  String.mk (s.toList.map Char.toLower)

/-- Character-list test: the first list is an initial segment of the second. -/
def charsLead : List Char → List Char → Bool
  | [], _ => true
  | _ :: _, [] => false
  | a :: as, b :: bs => a = b && charsLead as bs

/-- Character-list test: the first list occurs contiguously in the second. -/
def charsInside (needle : List Char) : List Char → Bool
  | [] => needle.isEmpty
  | b :: bs => charsLead needle (b :: bs) || charsInside needle bs

/-- Model of the Python substring test (needle in hay). -/
def strContains (hay needle : String) : Bool :=
  charsInside needle.toList hay.toList

/-- Model of the Python str.startswith method. -/
def strStartsWith (s pre : String) : Bool :=
  charsLead pre.toList s.toList

/-! ## Data model -/

/-- The three private extended-property keys the engine reads and writes:
trisync, trisync_chain_id and trisync_origin.  A field holding none models a
key that is absent from the private metadata dictionary. -/
structure Meta where
  trisync : Option String
  chainId : Option String
  origin : Option String
deriving DecidableEq, Repr

/-- An event dictionary as the source manipulates it.  Optional fields model
dictionary keys that may be absent; start and endTime are kept opaque (the
source only copies and compares them); updated is the provider modification
timestamp, abstracted to a natural number since the source only compares
parsed timestamps. -/
structure Event where
  id : String
  summary : Option String
  location : Option String
  description : Option String
  start : String
  endTime : String
  visibility : Option String
  eventType : Option String
  reminders : Option String
  updated : Nat
  meta : Meta
deriving DecidableEq, Repr

/-- Result of canonical_event_dict: the five content fields with defaults. -/
structure CanonicalEvent where
  summary : String
  location : String
  description : String
  start : String
  endTime : String
deriving DecidableEq, Repr

/-- One configured calendar entry (name, calendar_id, optional
copy_visibility override). -/
structure Calendar where
  name : String
  calendar_id : String
  copy_visibility : Option String
deriving DecidableEq, Repr

/-- The configuration keys the embedded code reads.  Boolean fields store the
effective value after the Python cfg.get defaults (skip_title_known_pfx is
the key skip_if_title_has_known_prefix, default true; pfx_origin_in_title is
the key prefix_origin_in_title, default true). -/
structure Config where
  ignore_if_summary_contains : List String
  ignore_event_types : List String
  skip_title_known_pfx : Bool
  pfx_origin_in_title : Bool
  sync_tag_in_description : String
  default_copy_visibility : Option String
  sync_delete : Bool
deriving DecidableEq, Repr

/-- A write operation attempted against the calendar gateway. -/
inductive Op where
  | insert (calendarId : String) (body : Event)
  | update (calendarId : String) (eventId : String) (body : Event)
  | patch (calendarId : String) (eventId : String) (meta : Meta)
  | delete (calendarId : String) (eventId : String)
deriving DecidableEq, Repr

/-- True exactly on insert operations. -/
def Op.isInsert : Op → Bool
  | .insert _ _ => true
  | _ => false

/-- True exactly on delete operations. -/
def Op.isDelete : Op → Bool
  | .delete _ _ => true
  | _ => false

/-- True exactly on patch operations. -/
def Op.isPatch : Op → Bool
  | .patch _ _ _ => true
  | _ => false

/-- Abstract model of the calendar gateway.  fails tells which write calls
raise HttpError; assignId gives the id the server puts on an inserted body;
findByChain models the query by private extended property
trisync_chain_id; getEvent models events().get, returning none when the call
raises HttpError (deleted event or transient failure). -/
structure Gateway where
  fails : Op → Bool
  assignId : String → Event → String
  findByChain : String → String → Option Event
  getEvent : String → String → Option Event

/-! ## Pure helpers, translated one-to-one from the source -/

/-- Translation of canonical_event_dict. -/
def canonical_event_dict (e : Event) : CanonicalEvent :=
  { summary := e.summary.getD ""
    location := e.location.getD ""
    description := e.description.getD ""
    start := e.start
    endTime := e.endTime }

/-- Translation of title_with_origin. -/
def title_with_origin (pfxEnabled : Bool) (originName title : String) : String :=
  if !pfxEnabled then title
  else
    let pfx := "[" ++ originName ++ "] "
    if strStartsWith title pfx then title else pfx ++ title

/-- Translation of add_sync_note. -/
def add_sync_note (desc note : String) : String :=
  if note != "" && !(strContains desc note) then
    if pyStrip desc != "" then desc ++ "\n\n" ++ note else note
  else desc

/-- Translation of compute_chain_id; the SHA-1 hex digest is abstracted as a
function parameter since no claim depends on its value. -/
def compute_chain_id (sha1hex : String → String) (originCalendarName eventId : String) : String :=
  sha1hex (originCalendarName ++ ":" ++ eventId)

/-- Membership test against the tuple of four legal visibility values used in
desired_copy_visibility_for. -/
def validVis (v : String) : Bool :=
  v = "default" || v = "private" || v = "public" || v = "confidential"

/-- Translation of desired_copy_visibility_for: the per-calendar override if
valid, else the global default if valid, else private. -/
def desired_copy_visibility_for (calCfg : Calendar) (globalCfg : Config) : String :=
  match calCfg.copy_visibility with
  | some v =>
    if validVis v then v
    else match globalCfg.default_copy_visibility with
      | some w => if validVis w then w else "private"
      | none => "private"
  | none =>
    match globalCfg.default_copy_visibility with
    | some w => if validVis w then w else "private"
    | none => "private"

/-- Translation of should_skip_event: keyword filter, event-type filter, then
known-prefix filter. -/
def should_skip_event (ev : Event) (cfg : Config) (knownPfxes : List String) : Bool :=
  let title := pyStrip (ev.summary.getD "")
  if cfg.ignore_if_summary_contains.any
      (fun kw => kw != "" && strContains (lowerStr title) (lowerStr kw)) then
    true
  else
    let evType := pyStrip (ev.eventType.getD "")
    if evType != "" && cfg.ignore_event_types.contains evType then
      true
    else if cfg.skip_title_known_pfx &&
        knownPfxes.any (fun px => strStartsWith title px) then
      true
    else
      false

/-- Classification of one fetched event, as performed by the loop that fills
chain_map and unsynced in main: tracked events go to the chain map keyed by
their chain id, untracked events that pass should_skip_event become
candidates, the rest are ignored. -/
inductive Verdict where
  | tracked (chainId : String)
  | ignored
  | candidate
deriving DecidableEq, Repr

/-- Translation of the classification branch of the main fetch loop. -/
def classify_event (ev : Event) (cfg : Config) (knownPfxes : List String) : Verdict :=
  match ev.meta.trisync, ev.meta.chainId with
  | some t, some cid =>
    if t = "1" then Verdict.tracked cid
    else if should_skip_event ev cfg knownPfxes then Verdict.ignored
    else Verdict.candidate
  | _, _ =>
    if should_skip_event ev cfg knownPfxes then Verdict.ignored
    else Verdict.candidate

/-! ## Stateful operations: each returns the gateway write operations it
attempted, the log lines it printed, and whether it finished without an
uncaught exception. -/

/-- Result of update_if_diff: the event value the caller continues with, the
changed flag it returns, the attempted operations and the printed lines. -/
structure UpdOut where
  ev : Event
  changed : Bool
  ops : List Op
  logs : List String
deriving DecidableEq, Repr

/-- The changed flag computed by update_if_diff: the four keys location,
description, start, end diffed on their canonical values. -/
def update_changed (existing : Event) (sr : CanonicalEvent) : Bool :=
  let ex := canonical_event_dict existing
  ex.location != sr.location || ex.description != sr.description
    || ex.start != sr.start || ex.endTime != sr.endTime

/-- The body update_if_diff sends when some key differed: a copy of the
existing event with the differing keys overwritten and the sync note
re-appended to the description (the note append is unconditional on the
candidate body). -/
def update_desired (existing : Event) (sr : CanonicalEvent) (cfg : Config) : Event :=
  let ex := canonical_event_dict existing
  let desired0 : Event :=
    { existing with
      location := if ex.location != sr.location then some sr.location else existing.location
      description := if ex.description != sr.description then some sr.description else existing.description
      start := if ex.start != sr.start then sr.start else existing.start
      endTime := if ex.endTime != sr.endTime then sr.endTime else existing.endTime }
  { desired0 with
    description := some (add_sync_note (desired0.description.getD "") cfg.sync_tag_in_description) }

/-- Translation of update_if_diff.  The update call is issued only when some
key differed, and an HttpError there is caught: the function then logs and
returns the existing event and false. -/
def update_if_diff (gw : Gateway) (calendarId : String) (existing : Event)
    (sr : CanonicalEvent) (cfg : Config) : UpdOut :=
  if update_changed existing sr then
    let op := Op.update calendarId existing.id (update_desired existing sr cfg)
    if gw.fails op then
      { ev := existing, changed := false, ops := [op]
        logs := ["Update failed on " ++ calendarId] }
    else
      { ev := update_desired existing sr cfg, changed := true, ops := [op], logs := [] }
  else
    { ev := existing, changed := false, ops := [], logs := [] }

/-- Default reminders dictionary used by create_copy when the source has
none, kept opaque. -/
def remindersDefault : String := "useDefault true"

/-- The body create_copy builds and passes to the insert call. -/
def create_copy_body (cfg : Config) (originName chainId : String) (sourceEvent : Event) : Event :=
  { id := ""
    summary := some (title_with_origin cfg.pfx_origin_in_title originName
      (sourceEvent.summary.getD ""))
    location := some (sourceEvent.location.getD "")
    description := some (add_sync_note (sourceEvent.description.getD "")
      cfg.sync_tag_in_description)
    start := sourceEvent.start
    endTime := sourceEvent.endTime
    visibility := some (sourceEvent.visibility.getD "default")
    eventType := none
    reminders := some (sourceEvent.reminders.getD remindersDefault)
    updated := 0
    meta := { trisync := some "1", chainId := some chainId, origin := some originName } }

/-- The create-then-force-visibility sequence shared by the bootstrap loop
and the reconciliation loop (both wrap it in a try that catches HttpError).
Returns the mirror as known after the calls, the attempted operations and
whether no call raised. -/
def create_and_force_vis (gw : Gateway) (cfg : Config) (originName chainId : String)
    (sourceEvent : Event) (c : Calendar) : Option Event × List Op × Bool :=
  let clone := create_copy_body cfg originName chainId sourceEvent
  let insOp := Op.insert c.calendar_id clone
  if gw.fails insOp then (none, [insOp], false)
  else
    let copied := { clone with id := gw.assignId c.calendar_id clone }
    let vis := desired_copy_visibility_for c cfg
    if copied.visibility != some vis then
      let forced := { copied with visibility := some vis }
      let visOp := Op.update c.calendar_id copied.id forced
      if gw.fails visOp then (some copied, [insOp, visOp], false)
      else (some forced, [insOp, visOp], true)
    else (some copied, [insOp], true)

/-- Result of reconciling one chain against one replica: the member as known
after the calls (none when even the insert failed), attempted operations,
printed lines, and ok = false exactly when an uncaught exception escaped. -/
structure RecOut where
  final : Option Event
  ops : List Op
  logs : List String
  ok : Bool
deriving DecidableEq, Repr

/-- Translation of the per-calendar body of the reconciliation loop in main.
When the replica has no member carrying the chain id, create_copy plus the
visibility force run inside a try that catches HttpError.  When a member
exists, update_if_diff runs (it catches its own failure), and then the
unconditional visibility enforcement issues an update that is NOT inside any
try: its failure escapes and aborts the pass. -/
def reconcileOne (gw : Gateway) (cfg : Config) (chainId : String)
    (sourceName : String) (sourceEvent : Event) (c : Calendar) : RecOut :=
  match gw.findByChain c.calendar_id chainId with
  | none =>
    let originName := (sourceEvent.meta.origin).getD sourceName
    let r := create_and_force_vis gw cfg originName chainId sourceEvent c
    if r.2.2 then
      { final := r.1, ops := r.2.1
        logs := ["[chain " ++ chainId.take 6 ++ "] Creato mancante in " ++ c.name]
        ok := true }
    else
      { final := r.1, ops := r.2.1
        logs := ["Insert failed on " ++ c.name], ok := true }
  | some targetEv =>
    let u := update_if_diff gw c.calendar_id targetEv (canonical_event_dict sourceEvent) cfg
    let vis := desired_copy_visibility_for c cfg
    if u.ev.visibility != some vis then
      let forced := { u.ev with visibility := some vis }
      let visOp := Op.update c.calendar_id u.ev.id forced
      if gw.fails visOp then
        { final := some u.ev, ops := u.ops ++ [visOp], logs := u.logs, ok := false }
      else
        { final := some forced, ops := u.ops ++ [visOp]
          logs := u.logs ++ ["[chain " ++ chainId.take 6 ++ "] Aggiornato in " ++ c.name]
          ok := true }
    else
      { final := some u.ev, ops := u.ops
        logs := u.logs ++
          (if u.changed then ["[chain " ++ chainId.take 6 ++ "] Aggiornato in " ++ c.name] else [])
        ok := true }

/-- Aggregate outcome of a chain-level phase. -/
structure ChainOut where
  ops : List Op
  logs : List String
  ok : Bool
deriving DecidableEq, Repr

/-- The reconciliation loop over all configured calendars; an uncaught
exception in one iteration aborts the remaining iterations. -/
def reconcile_loop (gw : Gateway) (cfg : Config) (chainId : String)
    (sourceName : String) (sourceEvent : Event) : List Calendar → ChainOut
  | [] => { ops := [], logs := [], ok := true }
  | c :: cs =>
    let r := reconcileOne gw cfg chainId sourceName sourceEvent c
    if r.ok then
      let rest := reconcile_loop gw cfg chainId sourceName sourceEvent cs
      { ops := r.ops ++ rest.ops, logs := r.logs ++ rest.logs, ok := rest.ok }
    else
      { ops := r.ops, logs := r.logs, ok := false }

/-- Translation of the Python max over items keyed by the parsed updated
timestamp: the first member with the strictly greatest timestamp wins. -/
def pick_source : List (String × Event) → Option (String × Event)
  | [] => none
  | p :: ps => some (ps.foldl (fun best q => if q.2.updated > best.2.updated then q else best) p)

/-- The conflict-resolution and materialization step for one refreshed,
non-tombstoned chain (the if items: block of main). -/
def reconcile_chain (gw : Gateway) (cfg : Config) (calendars : List Calendar)
    (chainId : String) (items : List (String × Event)) : ChainOut :=
  match pick_source items with
  | none => { ops := [], logs := [], ok := true }
  | some (sourceName, sourceEvent) =>
    reconcile_loop gw cfg chainId sourceName sourceEvent calendars

/-- The cascade-deletion loop of perform_safe_delete.  The next(...) calendar
lookup raises StopIteration, which the except HttpError clause does not
catch, so an unknown replica name aborts; a failing delete call is caught and
logged and the loop continues. -/
def delete_loop (gw : Gateway) (calendars : List Calendar) (chainId originName : String) :
    List (String × Event) → List Op × List String × Bool
  | [] => ([], [], true)
  | p :: rest =>
    if p.1 == originName then delete_loop gw calendars chainId originName rest
    else
      match calendars.find? (fun c => c.name == p.1) with
      | none => ([], [], false)
      | some c =>
        if p.2.meta.trisync == some "1" && p.2.meta.chainId == some chainId then
          let dOp := Op.delete c.calendar_id p.2.id
          let lg := if gw.fails dOp then "Delete failed on " ++ p.1
            else "[chain " ++ chainId.take 6 ++ "] Deleted in " ++ p.1 ++ " (origin missing)"
          let r := delete_loop gw calendars chainId originName rest
          (dOp :: r.1, lg :: r.2.1, r.2.2)
        else delete_loop gw calendars chainId originName rest

/-- Result of perform_safe_delete: the returned boolean (tomb), attempted
operations, printed lines and the no-uncaught-exception flag. -/
structure SdOut where
  tomb : Bool
  ops : List Op
  logs : List String
  ok : Bool
deriving DecidableEq, Repr

/-- Translation of perform_safe_delete: scan for the first member carrying
the trisync_origin key and keep its value; the guard is the Python truthiness
test if not origin_name, so both a missing key and an empty-string value mean
no recorded origin and the function reports not tombstoned (reconciliation
then runs).  Otherwise, if the origin replica still has a member, report not
tombstoned; else report tombstoned, deleting the tagged mirrors only when the
sync_delete flag is set. -/
def perform_safe_delete (gw : Gateway) (calendars : List Calendar) (chainId : String)
    (items : List (String × Event)) (cfg : Config) : SdOut :=
  match items.findSome? (fun p => p.2.meta.origin) with
  | none => { tomb := false, ops := [], logs := [], ok := true }
  | some originName =>
    if originName == "" then
      { tomb := false, ops := [], logs := [], ok := true }
    else if items.any (fun p => p.1 == originName) then
      { tomb := false, ops := [], logs := [], ok := true }
    else if !cfg.sync_delete then
      { tomb := true, ops := [], logs := [], ok := true }
    else
      let r := delete_loop gw calendars chainId originName items
      { tomb := true, ops := r.1, logs := r.2.1, ok := r.2.2 }

/-- The membership refresh loop that precedes tombstone checking: each member
is re-fetched by id; a get that raises HttpError (deleted event included)
falls back to the stale snapshot, and the member is appended either way.  The
next(...) calendar lookup is outside the try, so an unknown name aborts. -/
def refresh_items (gw : Gateway) (calendars : List Calendar) :
    List (String × Event) → List (String × Event) × Bool
  | [] => ([], true)
  | p :: rest =>
    match calendars.find? (fun c => c.name == p.1) with
    | none => ([], false)
    | some c =>
      let evRef := (gw.getEvent c.calendar_id p.2.id).getD p.2
      let r := refresh_items gw calendars rest
      ((p.1, evRef) :: r.1, r.2)

/-- Tombstone check plus conflict resolution for one refreshed chain: when
perform_safe_delete reports the origin missing the chain is skipped with a
continue, so reconcile_chain never runs on it. -/
def process_refreshed_chain (gw : Gateway) (cfg : Config) (calendars : List Calendar)
    (chainId : String) (items : List (String × Event)) : ChainOut :=
  let sd := perform_safe_delete gw calendars chainId items cfg
  if !sd.ok then { ops := sd.ops, logs := sd.logs, ok := false }
  else if sd.tomb then { ops := sd.ops, logs := sd.logs, ok := true }
  else
    let r := reconcile_chain gw cfg calendars chainId items
    { ops := sd.ops ++ r.ops, logs := sd.logs ++ r.logs, ok := r.ok }

/-- One full per-chain step of main: refresh the membership, then tombstone
check and reconciliation. -/
def process_chain (gw : Gateway) (cfg : Config) (calendars : List Calendar)
    (chainId : String) (items : List (String × Event)) : ChainOut :=
  let rf := refresh_items gw calendars items
  if !rf.2 then { ops := [], logs := [], ok := false }
  else process_refreshed_chain gw cfg calendars chainId rf.1

/-- The loop over all assembled chains; ok = true means control reached the
final completion marker print of main. -/
def run_chains (gw : Gateway) (cfg : Config) (calendars : List Calendar) :
    List (String × List (String × Event)) → List Op × Bool
  | [] => ([], true)
  | (chainId, items) :: rest =>
    let r := process_chain gw cfg calendars chainId items
    if r.ok then
      let rr := run_chains gw cfg calendars rest
      (r.ops ++ rr.1, rr.2)
    else (r.ops, false)

/-- Result of the bootstrap step of main for one untracked candidate: the
candidate object after the tag phase (mutated in memory only when the patch
path ran), attempted operations, printed lines, and the pair appended to
chain_map. -/
structure BootOut where
  taggedEv : Event
  ops : List Op
  logs : List String
  entry : String × Event
deriving DecidableEq, Repr

/-- The mirror-creation loop of the bootstrap step: for every calendar other
than the source replica, query by chain id and create a copy (with forced
visibility) when absent; HttpError is caught per calendar. -/
def bootstrap_mirrors (gw : Gateway) (cfg : Config) (srcName chainId : String)
    (ev : Event) : List Calendar → List Op × List String
  | [] => ([], [])
  | c :: cs =>
    if c.name == srcName then bootstrap_mirrors gw cfg srcName chainId ev cs
    else
      match gw.findByChain c.calendar_id chainId with
      | some _ => bootstrap_mirrors gw cfg srcName chainId ev cs
      | none =>
        let r := create_and_force_vis gw cfg srcName chainId ev c
        let lg := if r.2.2 then "Creato in " ++ c.name
          else "Insert failed on " ++ c.name
        let rest := bootstrap_mirrors gw cfg srcName chainId ev cs
        (r.2.1 ++ rest.1, lg :: rest.2)

/-- Translation of the bootstrap loop body of main for one unsynced
candidate: compute the chain id, tag the source in memory and patch its
metadata unless its event type is fromGmail (the patch path is wrapped in a
try catching every exception), then materialize the missing mirrors, and
finally append the candidate to chain_map under the computed chain id. -/
def bootstrap_candidate (gw : Gateway) (cfg : Config) (calendars : List Calendar)
    (sha1hex : String → String) (srcName : String) (ev : Event) : BootOut :=
  let chainId := compute_chain_id sha1hex srcName ev.id
  let tag :
      Event × List Op × List String :=
    match calendars.find? (fun c => c.name == srcName) with
    | none => (ev, [], ["Warning: cannot save meta on " ++ srcName])
    | some c =>
      if (ev.eventType.getD "") != "fromGmail" then
        let tagged :=
          { ev with meta :=
            { trisync := some "1", chainId := some chainId, origin := some srcName } }
        let pOp := Op.patch c.calendar_id ev.id tagged.meta
        if gw.fails pOp then
          (tagged, [pOp], ["Warning: cannot save meta on " ++ srcName])
        else (tagged, [pOp], [])
      else
        (ev, [], ["Note: fromGmail event on " ++ srcName ++ ", skipping patch"])
  let ev2 := tag.1
  let m := bootstrap_mirrors gw cfg srcName chainId ev2 calendars
  { taggedEv := ev2, ops := tag.2.1 ++ m.1, logs := tag.2.2 ++ m.2
    entry := (srcName, ev2) }

/-! ## Specification-side descriptions used only to state theorems -/

/-- The delete the cascade branch is specified to attempt for one member:
none when the member sits on the origin replica, does not resolve to a
configured calendar, or no longer carries the tracking tag for this chain. -/
def cascade_fun (calendars : List Calendar) (chainId originName : String)
    (p : String × Event) : Option Op :=
  if p.1 == originName then none
  else
    match calendars.find? (fun c => c.name == p.1) with
    | none => none
    | some c =>
      if p.2.meta.trisync == some "1" && p.2.meta.chainId == some chainId then
        some (Op.delete c.calendar_id p.2.id)
      else none

/-- The deletes the cascade branch is specified to attempt: one per member
that is not on the origin replica, resolves to a configured calendar, and
still carries the tracking tag for this chain. -/
def cascade_deletes (calendars : List Calendar) (chainId originName : String)
    (items : List (String × Event)) : List Op :=
  items.filterMap (cascade_fun calendars chainId originName)

/-- The refreshed membership the refresh loop is specified to build when all
names resolve: each member re-fetched, falling back to its stale snapshot on
failure. -/
def refresh_spec (gw : Gateway) (calendars : List Calendar) :
    List (String × Event) → List (String × Event) :=
  List.map (fun p =>
    match calendars.find? (fun c => c.name == p.1) with
    | none => p
    | some c => (p.1, (gw.getEvent c.calendar_id p.2.id).getD p.2))

/-! ## Concrete instances used by witnesses and counterexamples -/

/-- Concrete stand-in for the SHA-1 hex digest (injective on these inputs). -/
def sha1stub : String → String := fun s => "h" ++ s

/-- A configuration holding only the Python defaults: empty filter lists,
skip-known-prefix and prefix-origin on, empty sync tag, no global visibility
default, cascade delete off. -/
def cfg0 : Config :=
  { ignore_if_summary_contains := []
    ignore_event_types := []
    skip_title_known_pfx := true
    pfx_origin_in_title := true
    sync_tag_in_description := ""
    default_copy_visibility := none
    sync_delete := false }

/-- First configured calendar. -/
def calA : Calendar := { name := "A", calendar_id := "cA", copy_visibility := none }

/-- Second configured calendar. -/
def calB : Calendar := { name := "B", calendar_id := "cB", copy_visibility := none }

/-- A tracked member on replica A, fields already converged and visibility
already at the resolved policy value. -/
def e1 : Event :=
  { id := "e1", summary := some "[A] Dentist", location := some "X"
    description := some "d", start := "s1", endTime := "t1"
    visibility := some "private", eventType := none, reminders := none
    updated := 5
    meta := { trisync := some "1", chainId := some "cid1", origin := some "A" } }

/-- The converged mirror of e1 on replica B. -/
def e2 : Event :=
  { id := "e2", summary := some "[A] Dentist", location := some "X"
    description := some "d", start := "s1", endTime := "t1"
    visibility := some "private", eventType := none, reminders := none
    updated := 3
    meta := { trisync := some "1", chainId := some "cid1", origin := some "A" } }

/-- Gateway for the second-pass scenario: both replicas answer the chain
query with their converged member and nothing fails. -/
def gw1 : Gateway :=
  { fails := fun _ => false
    assignId := fun _ _ => "n1"
    findByChain := fun calId ch =>
      if ch == "cid1" then
        if calId == "cA" then some e1 else if calId == "cB" then some e2 else none
      else none
    getEvent := fun _ _ => none }

/-- Gateway on which every call succeeds and nothing is found. -/
def gwOk : Gateway :=
  { fails := fun _ => false
    assignId := fun _ _ => "n1"
    findByChain := fun _ _ => none
    getEvent := fun _ _ => none }

/-- A chain member whose re-fetch will fail: used against a gateway whose
getEvent raises. -/
def evStale : Event :=
  { id := "e9", summary := some "[A] Gone", location := some ""
    description := some "", start := "s9", endTime := "t9"
    visibility := some "private", eventType := none, reminders := none
    updated := 7
    meta := { trisync := some "1", chainId := some "cid9", origin := some "A" } }

/-- A propagation-source event whose visibility differs from the resolved
policy value. -/
def sSrc : Event :=
  { id := "s1", summary := some "[A] Standup", location := some "Y"
    description := some "dd", start := "s2", endTime := "t2"
    visibility := some "public", eventType := none, reminders := none
    updated := 9
    meta := { trisync := some "1", chainId := some "cid1", origin := some "A" } }

/-- Gateway whose chain query on calendar A returns sSrc itself. -/
def gw6 : Gateway :=
  { fails := fun _ => false
    assignId := fun _ _ => "n6"
    findByChain := fun calId ch =>
      if calId == "cA" && ch == "cid1" then some sSrc else none
    getEvent := fun _ _ => none }

/-- A propagation source whose visibility already equals the resolved policy
value. -/
def sPriv : Event := { sSrc with visibility := some "private" }

/-- Gateway whose chain query on calendar A returns sPriv. -/
def gw6p : Gateway :=
  { fails := fun _ => false
    assignId := fun _ _ => "n6"
    findByChain := fun calId ch =>
      if calId == "cA" && ch == "cid1" then some sPriv else none
    getEvent := fun _ _ => none }

/-- The body of the visibility-forcing update that gw7 makes fail. -/
def forced7 : Event := { sSrc with visibility := some "private" }

/-- Gateway for the uncaught-failure scenario: the chain query on calendar A
returns sSrc and exactly the visibility-forcing update on it fails. -/
def gw7 : Gateway :=
  { fails := fun op => op == Op.update "cA" "s1" forced7
    assignId := fun _ _ => "n7"
    findByChain := fun calId ch =>
      if calId == "cA" && ch == "cid1" then some sSrc else none
    getEvent := fun _ _ => none }

/-- An untracked candidate of the provider type fromGmail. -/
def evG : Event :=
  { id := "g1", summary := some "Lunch", location := some ""
    description := some "", start := "s3", endTime := "t3"
    visibility := some "private", eventType := some "fromGmail", reminders := none
    updated := 2
    meta := { trisync := none, chainId := none, origin := none } }

/-- A tombstoned chain member on replica B whose origin replica A has no
member: used for the tombstone and cascade scenarios. -/
def mB : Event :=
  { id := "m1", summary := some "[A] Dentist", location := some "X"
    description := some "d", start := "s1", endTime := "t1"
    visibility := some "private", eventType := none, reminders := none
    updated := 4
    meta := { trisync := some "1", chainId := some "cid1", origin := some "A" } }

/-- An untracked event whose title contains the ignore keyword ooo. -/
def evK : Event :=
  { id := "k1", summary := some "Focus OOO block", location := none
    description := none, start := "s4", endTime := "t4"
    visibility := none, eventType := none, reminders := none
    updated := 1
    meta := { trisync := none, chainId := none, origin := none } }

/-- A configuration whose keyword filter contains ooo. -/
def cfgK : Config := { cfg0 with ignore_if_summary_contains := ["ooo"] }

/-- The default configuration with cascade delete switched on. -/
def cfgD : Config := { cfg0 with sync_delete := true }

/-- The default configuration with a nonempty sync tag. -/
def cfgT : Config := { cfg0 with sync_tag_in_description := "SYNC" }

/-- The origin event on replica A exactly as the first pass leaves it under
cfgT: tagged, visibility already forced, description without the sync note
(pass one never rewrites the origin description). -/
def eO : Event :=
  { id := "o1", summary := some "Dentist", location := some "X"
    description := some "d", start := "s1", endTime := "t1"
    visibility := some "private", eventType := none, reminders := none
    updated := 1
    meta := { trisync := some "1", chainId := some "cid2", origin := some "A" } }

/-- The mirror on replica B exactly as the first pass creates it from eO
under cfgT: prefixed title, sync note appended to the description, forced
visibility, later modification timestamp (it was written after the origin was
patched). -/
def eM : Event :=
  { id := "m2", summary := some "[A] Dentist", location := some "X"
    description := some ("d" ++ "\n\n" ++ "SYNC"), start := "s1", endTime := "t1"
    visibility := some "private", eventType := none
    reminders := some remindersDefault
    updated := 9
    meta := { trisync := some "1", chainId := some "cid2", origin := some "A" } }

/-- Gateway for the second pass over the unchanged chain of eO and eM. -/
def gwT : Gateway :=
  { fails := fun _ => false
    assignId := fun _ _ => "nT"
    findByChain := fun calId ch =>
      if ch == "cid2" then
        if calId == "cA" then some eO else if calId == "cB" then some eM else none
      else none
    getEvent := fun _ _ => none }

/-- The origin event after the second pass under cfgT: the sync note has been
propagated into its description, so its modification timestamp is now the
latest. -/
def eO3 : Event := { eO with description := some ("d" ++ "\n\n" ++ "SYNC"), updated := 12 }

/-- Gateway for the third pass over the fully converged chain of eO3 and
eM. -/
def gw3 : Gateway :=
  { fails := fun _ => false
    assignId := fun _ _ => "n3"
    findByChain := fun calId ch =>
      if ch == "cid2" then
        if calId == "cA" then some eO3 else if calId == "cB" then some eM else none
      else none
    getEvent := fun _ _ => none }

/-- A tombstoned chain: its only live member is the mirror on replica B,
whose metadata records replica A as origin. -/
def items2 : List (String × Event) := [("B", mB)]

/-! ## Theorems -/

/-- Helper: diffing an event against its own canonical dictionary reports no
change and issues no call. -/
theorem update_if_diff_eq_self (gw : Gateway) (calId : String) (ev : Event) (cfg : Config) :
    update_if_diff gw calId ev (canonical_event_dict ev) cfg =
      { ev := ev, changed := false, ops := [], logs := [] } := by
  have h : update_changed ev (canonical_event_dict ev) = false := by
    simp [update_changed]
  simp [update_if_diff, h]

/-- C8: for every mirror created or updated in a pass, the desired visibility
is the per-target copy_visibility override when it is one of the four legal
values, else the global default_copy_visibility when legal, else private; and
because enforcement runs on every pass even without a content change, after
the per-replica step (absent gateway failures) the member held by the replica
has exactly the resolved visibility, whatever it was before. -/
theorem claim_C8_visibility_convergence :
    (∀ gw cfg chainId sn se c, (∀ op, gw.fails op = false) →
      ∃ e, (reconcileOne gw cfg chainId sn se c).final = some e ∧
        e.visibility = some (desired_copy_visibility_for c cfg)) ∧
    (∀ c cfg v, c.copy_visibility = some v → validVis v = true →
      desired_copy_visibility_for c cfg = v) ∧
    (∀ c cfg w,
      (c.copy_visibility = none ∨ ∃ v, c.copy_visibility = some v ∧ validVis v = false) →
      cfg.default_copy_visibility = some w → validVis w = true →
      desired_copy_visibility_for c cfg = w) ∧
    (∀ c cfg,
      (c.copy_visibility = none ∨ ∃ v, c.copy_visibility = some v ∧ validVis v = false) →
      (cfg.default_copy_visibility = none ∨
        ∃ w, cfg.default_copy_visibility = some w ∧ validVis w = false) →
      desired_copy_visibility_for c cfg = "private") := by
  refine ⟨?_, ?_, ?_, ?_⟩
  · intro gw cfg chainId sn se c hfail
    cases hf : gw.findByChain c.calendar_id chainId with
    | none =>
      by_cases hv : (create_copy_body cfg ((se.meta.origin).getD sn) chainId se).visibility
          = some (desired_copy_visibility_for c cfg)
      · have hb : ((create_copy_body cfg ((se.meta.origin).getD sn) chainId se).visibility
            != some (desired_copy_visibility_for c cfg)) = false := by simp [hv]
        exact ⟨{ create_copy_body cfg ((se.meta.origin).getD sn) chainId se with
                  id := gw.assignId c.calendar_id
                    (create_copy_body cfg ((se.meta.origin).getD sn) chainId se) },
          by simp [reconcileOne, hf, create_and_force_vis, hfail, hb], hv⟩
      · have hb : ((create_copy_body cfg ((se.meta.origin).getD sn) chainId se).visibility
            != some (desired_copy_visibility_for c cfg)) = true := by
          simp only [bne_iff_ne, ne_eq]; exact hv
        exact ⟨{ { create_copy_body cfg ((se.meta.origin).getD sn) chainId se with
                    id := gw.assignId c.calendar_id
                      (create_copy_body cfg ((se.meta.origin).getD sn) chainId se) } with
                  visibility := some (desired_copy_visibility_for c cfg) },
          by simp [reconcileOne, hf, create_and_force_vis, hfail, hb], rfl⟩
    | some targetEv =>
      by_cases hv : (update_if_diff gw c.calendar_id targetEv (canonical_event_dict se) cfg).ev.visibility
          = some (desired_copy_visibility_for c cfg)
      · have hb : ((update_if_diff gw c.calendar_id targetEv (canonical_event_dict se) cfg).ev.visibility
            != some (desired_copy_visibility_for c cfg)) = false := by simp [hv]
        exact ⟨(update_if_diff gw c.calendar_id targetEv (canonical_event_dict se) cfg).ev,
          by simp [reconcileOne, hf, hb], hv⟩
      · have hb : ((update_if_diff gw c.calendar_id targetEv (canonical_event_dict se) cfg).ev.visibility
            != some (desired_copy_visibility_for c cfg)) = true := by
          simp only [bne_iff_ne, ne_eq]; exact hv
        exact ⟨{ (update_if_diff gw c.calendar_id targetEv (canonical_event_dict se) cfg).ev with
                  visibility := some (desired_copy_visibility_for c cfg) },
          by simp [reconcileOne, hf, hb, hfail], rfl⟩
  · intro c cfg v h1 h2
    simp [desired_copy_visibility_for, h1, h2]
  · intro c cfg w h1 h2 h3
    rcases h1 with h1 | ⟨v, hv, hvv⟩
    · simp [desired_copy_visibility_for, h1, h2, h3]
    · simp [desired_copy_visibility_for, hv, hvv, h2, h3]
  · intro c cfg h1 h2
    rcases h1 with h1 | ⟨v, hv, hvv⟩ <;> rcases h2 with h2 | ⟨w, hw, hww⟩ <;>
      simp [desired_copy_visibility_for, *]

/-- C8 witness: on a concrete gateway with no failures, reconciling the chain
against calendar A leaves a member whose visibility is the resolved policy
value. -/
theorem claim_C8_witness :
    ∃ e, (reconcileOne gwOk cfg0 "cid1" "A" sSrc calA).final = some e ∧
      e.visibility = some (desired_copy_visibility_for calA cfg0) :=
  claim_C8_visibility_convergence.1 gwOk cfg0 "cid1" "A" sSrc calA (fun _ => rfl)

/-- C9: an untracked event whose title contains a configured nonempty ignore
keyword (case-insensitively) is classified Ignored, so it never seeds a chain
and is never tagged as an origin; and a tracked event is classified Tracked
under every configuration and prefix set, so the filter rules are never
applied to it. -/
theorem claim_C9_filter_correctness :
    (∀ ev cfg px kw, kw ∈ cfg.ignore_if_summary_contains → kw ≠ "" →
      strContains (lowerStr (pyStrip (ev.summary.getD ""))) (lowerStr kw) = true →
      ¬ (ev.meta.trisync = some "1" ∧ (ev.meta.chainId).isSome = true) →
      classify_event ev cfg px = Verdict.ignored) ∧
    (∀ ev cfg1 cfg2 px1 px2 cid, ev.meta.trisync = some "1" → ev.meta.chainId = some cid →
      classify_event ev cfg1 px1 = Verdict.tracked cid ∧
      classify_event ev cfg2 px2 = Verdict.tracked cid) := by
  constructor
  · intro ev cfg px kw hmem hne hsub hun
    have hany : cfg.ignore_if_summary_contains.any
        (fun k => k != "" && strContains (lowerStr (pyStrip (ev.summary.getD ""))) (lowerStr k))
          = true := by
      rw [List.any_eq_true]
      exact ⟨kw, hmem, by simp [hsub, bne_iff_ne, hne]⟩
    have hskip : should_skip_event ev cfg px = true := by
      simp [should_skip_event, hany]
    cases ht : ev.meta.trisync with
    | none => cases hc : ev.meta.chainId <;> simp [classify_event, ht, hc, hskip]
    | some t =>
      cases hc : ev.meta.chainId with
      | none => simp [classify_event, ht, hc, hskip]
      | some cid =>
        by_cases hT : t = "1"
        · exact absurd ⟨by rw [ht, hT], by rw [hc]; rfl⟩ hun
        · simp [classify_event, ht, hc, hT, hskip]
  · intro ev cfg1 cfg2 px1 px2 cid h1 h2
    constructor <;> simp [classify_event, h1, h2]

/-- C9 witness: a concrete untracked event whose title contains the keyword
ooo case-insensitively is classified Ignored, while a concrete tracked event
is classified Tracked under two different configurations. -/
theorem claim_C9_witness :
    classify_event evK cfgK [] = Verdict.ignored ∧
    classify_event e1 cfg0 [] = Verdict.tracked "cid1" ∧
    classify_event e1 cfgK ["[A] "] = Verdict.tracked "cid1" :=
  ⟨claim_C9_filter_correctness.1 evK cfgK [] "ooo" (by decide) (by decide) (by decide)
      (by decide),
   (claim_C9_filter_correctness.2 e1 cfg0 cfgK [] ["[A] "] "cid1" rfl rfl).1,
   (claim_C9_filter_correctness.2 e1 cfg0 cfgK [] ["[A] "] "cid1" rfl rfl).2⟩

/-- C10: an empty string in the ignore_if_summary_contains list never causes
a skip (the truthiness test on the keyword short-circuits the substring
test), and an event whose eventType is empty or missing is never skipped by
the event-type rule, whatever the configured ignore set. -/
theorem claim_C10_empty_string_filters :
    (∀ ev cfg px,
      should_skip_event ev
        { cfg with ignore_if_summary_contains := "" :: cfg.ignore_if_summary_contains } px
        = should_skip_event ev cfg px) ∧
    (∀ ev cfg px, pyStrip (ev.eventType.getD "") = "" →
      should_skip_event ev cfg px
        = should_skip_event ev { cfg with ignore_event_types := [] } px) := by
  constructor
  · intro ev cfg px
    simp [should_skip_event]
  · intro ev cfg px h
    simp [should_skip_event, h]

/-- C10 witness: on a concrete event with no eventType, adding the empty
string to the keyword list and swapping the event-type ignore set both leave
the skip decision unchanged. -/
theorem claim_C10_witness :
    (should_skip_event evK
      { cfgK with ignore_if_summary_contains := "" :: cfgK.ignore_if_summary_contains } []
      = should_skip_event evK cfgK []) ∧
    (should_skip_event evK cfgK [] = should_skip_event evK { cfgK with ignore_event_types := [] } []) :=
  ⟨claim_C10_empty_string_filters.1 evK cfgK [],
   claim_C10_empty_string_filters.2 evK cfgK [] (by decide)⟩

/-- Helper: every operation the cascade loop attempts is a delete. -/
theorem delete_loop_isDelete (gw : Gateway) (calendars : List Calendar) (chainId o : String) :
    ∀ items : List (String × Event),
      ∀ op ∈ (delete_loop gw calendars chainId o items).1, op.isDelete = true := by
  intro items
  induction items with
  | nil => intro op h; simp [delete_loop] at h
  | cons p rest ih =>
    intro op h
    simp only [delete_loop] at h
    split at h
    · exact ih op h
    · split at h
      · simp at h
      · split at h
        · simp only [List.cons.injEq] at h
          rcases List.mem_cons.mp h with h | h
          · subst h; rfl
          · exact ih op h
        · exact ih op h

/-- Helper: characterization of the per-member cascade delete. -/
theorem cascade_fun_some (calendars : List Calendar) (chainId o : String)
    (p : String × Event) (op : Op) :
    cascade_fun calendars chainId o p = some op ↔
      (p.1 == o) = false ∧
      ∃ c, calendars.find? (fun x => x.name == p.1) = some c ∧
        (p.2.meta.trisync == some "1" && p.2.meta.chainId == some chainId) = true ∧
        op = Op.delete c.calendar_id p.2.id := by
  unfold cascade_fun
  cases ho : (p.1 == o) with
  | true => simp [ho]
  | false =>
    cases hf : calendars.find? (fun c => c.name == p.1) with
    | none => simp [hf]
    | some c =>
      cases hm : (p.2.meta.trisync == some "1" && p.2.meta.chainId == some chainId) with
      | true => simp [hf, hm, eq_comm]
      | false => simp [hf, hm]

/-- Helper: membership in the specified cascade delete list. -/
theorem cascade_deletes_mem (calendars : List Calendar) (chainId o : String)
    (items : List (String × Event)) (op : Op) :
    op ∈ cascade_deletes calendars chainId o items ↔
      ∃ p ∈ items, (p.1 == o) = false ∧
        ∃ c, calendars.find? (fun x => x.name == p.1) = some c ∧
          (p.2.meta.trisync == some "1" && p.2.meta.chainId == some chainId) = true ∧
          op = Op.delete c.calendar_id p.2.id := by
  simp [cascade_deletes, List.mem_filterMap, cascade_fun_some]

/-- Helper: under resolvable member names, the cascade loop attempts exactly
the specified deletes and finishes without an uncaught exception. -/
theorem delete_loop_spec (gw : Gateway) (calendars : List Calendar) (chainId o : String) :
    ∀ items : List (String × Event),
      (∀ p ∈ items, (calendars.find? (fun c => c.name == p.1)).isSome = true) →
      (delete_loop gw calendars chainId o items).1 = cascade_deletes calendars chainId o items ∧
      (delete_loop gw calendars chainId o items).2.2 = true := by
  intro items
  induction items with
  | nil => intro _; exact ⟨rfl, rfl⟩
  | cons p rest ih =>
    intro h
    have hp := h p (List.mem_cons_self p rest)
    obtain ⟨c, hc⟩ := Option.isSome_iff_exists.mp hp
    have hrest := ih (fun q hq => h q (List.mem_cons_of_mem p hq))
    cases ho : (p.1 == o) with
    | true =>
      simp [delete_loop, cascade_deletes, cascade_fun, ho, hc, hrest.1, hrest.2,
        List.filterMap_cons]
    | false =>
      cases hm : (p.2.meta.trisync == some "1" && p.2.meta.chainId == some chainId) with
      | true =>
        simp [delete_loop, cascade_deletes, cascade_fun, ho, hc, hm, hrest.1, hrest.2,
          List.filterMap_cons]
      | false =>
        simp [delete_loop, cascade_deletes, cascade_fun, ho, hc, hm, hrest.1, hrest.2,
          List.filterMap_cons]

/-- Helper: under resolvable member names, a failing delete is logged with
the replica name and the loop continues past it. -/
theorem delete_loop_fail_log (gw : Gateway) (calendars : List Calendar) (chainId o : String) :
    ∀ items : List (String × Event),
      (∀ q ∈ items, (calendars.find? (fun x => x.name == q.1)).isSome = true) →
      ∀ p ∈ items, (p.1 == o) = false →
      ∀ c, calendars.find? (fun x => x.name == p.1) = some c →
      (p.2.meta.trisync == some "1" && p.2.meta.chainId == some chainId) = true →
      gw.fails (Op.delete c.calendar_id p.2.id) = true →
      ("Delete failed on " ++ p.1) ∈ (delete_loop gw calendars chainId o items).2.1 := by
  intro items
  induction items with
  | nil => intro _ p hp; simp at hp
  | cons q rest ih =>
    intro hres p hp ho c hc hm hfl
    rcases List.mem_cons.mp hp with hP | hP
    · subst hP
      simp [delete_loop, ho, hc, hm, hfl]
    · have htail := ih (fun r hr => hres r (List.mem_cons_of_mem q hr)) p hP ho c hc hm hfl
      cases hqo : (q.1 == o) with
      | true => simpa [delete_loop, hqo] using htail
      | false =>
        obtain ⟨cq, hqf⟩ := Option.isSome_iff_exists.mp (hres q (List.mem_cons_self q rest))
        cases hqm : (q.2.meta.trisync == some "1" && q.2.meta.chainId == some chainId) with
        | true => simp [delete_loop, hqo, hqf, hqm, htail]
        | false => simpa [delete_loop, hqo, hqf, hqm] using htail

/-- Helper: with distinct member names and calendar ids that determine the
calendar name, each matching member contributes its delete exactly once to
the specified cascade list. -/
theorem cascade_deletes_count (calendars : List Calendar) (chainId o : String)
    (hinj : ∀ c1 ∈ calendars, ∀ c2 ∈ calendars, c1.calendar_id = c2.calendar_id → c1.name = c2.name) :
    ∀ items : List (String × Event), (items.map Prod.fst).Nodup →
      ∀ p ∈ items, ∀ c, calendars.find? (fun x => x.name == p.1) = some c →
        (p.1 == o) = false →
        (p.2.meta.trisync == some "1" && p.2.meta.chainId == some chainId) = true →
        (cascade_deletes calendars chainId o items).count (Op.delete c.calendar_id p.2.id) = 1 := by
  intro items
  induction items with
  | nil => intro _ p hp; simp at hp
  | cons q rest ih =>
    intro hnd p hp c hc ho hm
    have hnd' : q.1 ∉ rest.map Prod.fst ∧ (rest.map Prod.fst).Nodup := by
      rw [List.map_cons] at hnd
      exact List.nodup_cons.mp hnd
    rcases List.mem_cons.mp hp with hP | hP
    · subst hP
      have hfp : cascade_fun calendars chainId o p = some (Op.delete c.calendar_id p.2.id) :=
        (cascade_fun_some calendars chainId o p _).mpr ⟨ho, c, hc, hm, rfl⟩
      have hnot : Op.delete c.calendar_id p.2.id ∉ cascade_deletes calendars chainId o rest := by
        intro hmem
        obtain ⟨q', hq', _, c', hc', _, heq⟩ :=
          (cascade_deletes_mem calendars chainId o rest _).mp hmem
        have hcal : c.calendar_id = c'.calendar_id ∧ p.2.id = q'.2.id := by
          simpa [Op.delete.injEq] using heq
        have hname : c.name = c'.name :=
          hinj c (List.mem_of_find?_eq_some hc) c' (List.mem_of_find?_eq_some hc') hcal.1
        have h1 : c.name = p.1 := by
          have := List.find?_some hc; simpa using this
        have h2 : c'.name = q'.1 := by
          have := List.find?_some hc'; simpa using this
        exact hnd'.1 (by
          have hq1 : q'.1 = p.1 := by rw [← h2, ← hname, h1]
          exact hq1 ▸ List.mem_map_of_mem Prod.fst hq')
      have hexp : cascade_deletes calendars chainId o (p :: rest) =
          Op.delete c.calendar_id p.2.id :: cascade_deletes calendars chainId o rest := by
        simp [cascade_deletes, List.filterMap_cons, hfp]
      rw [hexp, List.count_cons_self, List.count_eq_zero.mpr hnot]
    · have hcount := ih hnd'.2 p hP c hc ho hm
      cases hfq : cascade_fun calendars chainId o q with
      | none =>
        simpa [cascade_deletes, List.filterMap_cons, hfq] using hcount
      | some b =>
        have hne : Op.delete c.calendar_id p.2.id ≠ b := by
          intro hbe
          obtain ⟨_, c', hc', _, heq⟩ := (cascade_fun_some calendars chainId o q _).mp hfq
          have hcal : c'.calendar_id = c.calendar_id ∧ q.2.id = p.2.id := by
            rw [heq] at hbe
            simpa [Op.delete.injEq] using hbe.symm
          have hname : c'.name = c.name :=
            hinj c' (List.mem_of_find?_eq_some hc') c (List.mem_of_find?_eq_some hc) hcal.1
          have h1 : c.name = p.1 := by
            have := List.find?_some hc; simpa using this
          have h2 : c'.name = q.1 := by
            have := List.find?_some hc'; simpa using this
          exact hnd'.1 (by
            have hq1 : q.1 = p.1 := by rw [← h2, hname, h1]
            exact hq1 ▸ List.mem_map_of_mem Prod.fst hP)
        have hexp : cascade_deletes calendars chainId o (q :: rest) =
            b :: cascade_deletes calendars chainId o rest := by
          simp [cascade_deletes, List.filterMap_cons, hfq]
        rw [hexp, List.count_cons_of_ne hne]
        exact hcount

/-- Helper: when the four diffed fields all agree, update_if_diff reports no
change and issues no call. -/
theorem update_if_diff_no_change (gw : Gateway) (calId : String) (existing : Event)
    (sr : CanonicalEvent) (cfg : Config) (h : update_changed existing sr = false) :
    update_if_diff gw calId existing sr cfg =
      { ev := existing, changed := false, ops := [], logs := [] } := by
  simp [update_if_diff, h]

/-- Helper: a replica whose member agrees with the source on the four diffed
fields and already has the resolved visibility gets no call at all. -/
theorem reconcileOne_noop (gw : Gateway) (cfg : Config) (chainId sn : String)
    (se : Event) (c : Calendar) (m : Event)
    (hf : gw.findByChain c.calendar_id chainId = some m)
    (hch : update_changed m (canonical_event_dict se) = false)
    (hvis : m.visibility = some (desired_copy_visibility_for c cfg)) :
    reconcileOne gw cfg chainId sn se c =
      { final := some m, ops := [], logs := [], ok := true } := by
  have hu := update_if_diff_no_change gw c.calendar_id m (canonical_event_dict se) cfg hch
  have hb : (m.visibility != some (desired_copy_visibility_for c cfg)) = false := by
    simp [hvis]
  simp [reconcileOne, hf, hu, hb]

/-- Helper: when every replica is in the converged state, the whole
reconciliation loop performs no call. -/
theorem reconcile_loop_noop (gw : Gateway) (cfg : Config) (chainId sn : String) (se : Event) :
    ∀ cals : List Calendar,
      (∀ c ∈ cals, ∃ m, gw.findByChain c.calendar_id chainId = some m ∧
        update_changed m (canonical_event_dict se) = false ∧
        m.visibility = some (desired_copy_visibility_for c cfg)) →
      reconcile_loop gw cfg chainId sn se cals = { ops := [], logs := [], ok := true } := by
  intro cals
  induction cals with
  | nil => intro _; rfl
  | cons c cs ih =>
    intro h
    obtain ⟨m, hf, hch, hvis⟩ := h c (List.mem_cons_self c cs)
    have hone := reconcileOne_noop gw cfg chainId sn se c m hf hch hvis
    have hrest := ih (fun d hd => h d (List.mem_cons_of_mem c hd))
    simp [reconcile_loop, hone, hrest]

/-- C1 counterexample: with a nonempty sync tag, a second pass over a chain
whose members are unchanged since the first pass still writes.  The state is
exactly what pass one leaves behind (the last three conjuncts check the
mirror eM against the create_copy output for eO under cfgT: prefixed title,
sync note appended, forced visibility): the origin description lacks the sync
note that the mirror carries, the mirror has the later modification timestamp
and is selected as source, and the pass issues an update against the
unchanged origin event, contradicting zero-additional-writes. -/
theorem claim_C1_cex :
    pick_source [("A", eO), ("B", eM)] = some ("B", eM) ∧
    (process_refreshed_chain gwT cfgT [calA, calB] "cid2" [("A", eO), ("B", eM)]).ops =
      [Op.update "cA" "o1" (update_desired eO (canonical_event_dict eM) cfgT)] ∧
    (process_refreshed_chain gwT cfgT [calA, calB] "cid2" [("A", eO), ("B", eM)]).ops ≠ [] ∧
    eM.summary = some (title_with_origin cfgT.pfx_origin_in_title "A" (eO.summary.getD "")) ∧
    eM.description = some (add_sync_note (eO.description.getD "") cfgT.sync_tag_in_description) ∧
    eM.visibility = some (desired_copy_visibility_for calB cfgT) := by decide

/-- C1 amended: zero additional writes hold exactly for converged chains.  On
a refreshed chain whose origin replica is present, when every configured
replica answers the chain query with a member that agrees with the selected
source on the four diffed fields location, description, start, end (titles
may differ: the prefixed mirror titles of the real post-pass state are
allowed, since summary is excluded from the diff) and that already carries
its resolved policy visibility — the state reached once the sync note has
propagated everywhere, after at most two passes — the whole per-chain step
attempts zero gateway writes; and update_if_diff reports changed only when
one of the four fields really differs between the mirror and the selected
source. -/
theorem claim_C1_converged_idempotence :
    ∀ (gw : Gateway) (cfg : Config) (calendars : List Calendar) (chainId : String)
      (items : List (String × Event)) (o sn : String) (se : Event),
      items.findSome? (fun p => p.2.meta.origin) = some o →
      items.any (fun p => p.1 == o) = true →
      pick_source items = some (sn, se) →
      (∀ c ∈ calendars, ∃ m, gw.findByChain c.calendar_id chainId = some m ∧
        update_changed m (canonical_event_dict se) = false ∧
        m.visibility = some (desired_copy_visibility_for c cfg)) →
      (process_refreshed_chain gw cfg calendars chainId items =
        { ops := [], logs := [], ok := true } ∧
       ∀ (calId : String) (existing : Event) (sr : CanonicalEvent),
         (update_if_diff gw calId existing sr cfg).changed = true →
         ¬ ((canonical_event_dict existing).location = sr.location ∧
            (canonical_event_dict existing).description = sr.description ∧
            (canonical_event_dict existing).start = sr.start ∧
            (canonical_event_dict existing).endTime = sr.endTime)) := by
  intro gw cfg calendars chainId items o sn se h1 h2 h3 h4
  constructor
  · have hsd : perform_safe_delete gw calendars chainId items cfg =
        { tomb := false, ops := [], logs := [], ok := true } := by
      cases ho : (o == "") <;> simp [perform_safe_delete, h1, h2, ho]
    have hrc : reconcile_chain gw cfg calendars chainId items =
        { ops := [], logs := [], ok := true } := by
      simp [reconcile_chain, h3, reconcile_loop_noop gw cfg chainId sn se calendars h4]
    simp [process_refreshed_chain, hsd, hrc]
  · intro calId existing sr hch hcontra
    obtain ⟨hl, hd, hs, he⟩ := hcontra
    have hchf : update_changed existing sr = false := by
      simp [update_changed, hl, hd, hs, he]
    simp [update_if_diff, hchf] at hch

/-- C1 witness: the concrete converged third-pass state of the cfgT chain
(origin description now carries the sync note, mirror title still prefixed,
so the members differ in summary but agree on the four diffed fields) is
processed with zero attempted writes. -/
theorem claim_C1_witness :
    process_refreshed_chain gw3 cfgT [calA, calB] "cid2" [("A", eO3), ("B", eM)] =
      { ops := [], logs := [], ok := true } :=
  (claim_C1_converged_idempotence gw3 cfgT [calA, calB] "cid2" [("A", eO3), ("B", eM)]
    "A" "A" eO3
    (by decide) (by decide) (by decide)
    (by
      intro c hc
      have hc' : c = calA ∨ c = calB := by simpa using hc
      rcases hc' with h | h
      · subst h; exact ⟨eO3, by decide, by decide, by decide⟩
      · subst h; exact ⟨eM, by decide, by decide, by decide⟩)).1

/-- C2: on a refreshed chain whose recorded origin replica — the nonempty
name carried by the first trisync_origin value found on a member (an empty
value is Python-falsy and means no recorded origin) — has no live member, the
tombstone check reports true and processing stops there: the chain step
performs exactly what perform_safe_delete performed (the resolver and
materializer never run), every attempted operation is a delete (so no mirror
is ever created), and with cascade delete disabled the step performs no
operation at all, leaving the mirrors untouched. -/
theorem claim_C2_tombstone_safety :
    ∀ (gw : Gateway) (cfg : Config) (calendars : List Calendar) (chainId : String)
      (items : List (String × Event)) (o : String),
      items.findSome? (fun p => p.2.meta.origin) = some o →
      o ≠ "" →
      items.any (fun p => p.1 == o) = false →
      (process_refreshed_chain gw cfg calendars chainId items =
        { ops := (perform_safe_delete gw calendars chainId items cfg).ops
          logs := (perform_safe_delete gw calendars chainId items cfg).logs
          ok := (perform_safe_delete gw calendars chainId items cfg).ok } ∧
       (∀ op ∈ (process_refreshed_chain gw cfg calendars chainId items).ops,
          op.isInsert = false) ∧
       (cfg.sync_delete = false →
         process_refreshed_chain gw cfg calendars chainId items =
           { ops := [], logs := [], ok := true })) := by
  intro gw cfg calendars chainId items o h1 ho h2
  have hob : (o == "") = false := by
    simpa using ho
  have htomb : (perform_safe_delete gw calendars chainId items cfg).tomb = true := by
    cases hs : cfg.sync_delete <;> simp [perform_safe_delete, h1, hob, h2, hs]
  have hmain : process_refreshed_chain gw cfg calendars chainId items =
      { ops := (perform_safe_delete gw calendars chainId items cfg).ops
        logs := (perform_safe_delete gw calendars chainId items cfg).logs
        ok := (perform_safe_delete gw calendars chainId items cfg).ok } := by
    cases hok : (perform_safe_delete gw calendars chainId items cfg).ok <;>
      simp [process_refreshed_chain, hok, htomb]
  refine ⟨hmain, ?_, ?_⟩
  · intro op hop
    rw [hmain] at hop
    have hops : (perform_safe_delete gw calendars chainId items cfg).ops =
        if cfg.sync_delete then (delete_loop gw calendars chainId o items).1 else [] := by
      cases hs : cfg.sync_delete <;> simp [perform_safe_delete, h1, hob, h2, hs]
    rw [hops] at hop
    cases hs : cfg.sync_delete
    · rw [hs] at hop; simp at hop
    · rw [hs] at hop; simp at hop
      have := delete_loop_isDelete gw calendars chainId o items op hop
      cases op <;> simp_all [Op.isDelete, Op.isInsert]
  · intro hs
    have hsd : perform_safe_delete gw calendars chainId items cfg =
        { tomb := true, ops := [], logs := [], ok := true } := by
      simp [perform_safe_delete, h1, hob, h2, hs]
    rw [hmain, hsd]

/-- C2 witness: a concrete tombstoned chain (mirror on B, origin A absent)
with cascade disabled is left completely untouched. -/
theorem claim_C2_witness :
    process_refreshed_chain gwOk cfg0 [calA, calB] "cid1" items2 =
      { ops := [], logs := [], ok := true } :=
  (claim_C2_tombstone_safety gwOk cfg0 [calA, calB] "cid1" items2 "A"
    (by decide) (by decide) (by decide)).2.2 rfl

/-- C3: on a refreshed chain whose recorded origin replica — the nonempty
name carried by the first trisync_origin value found on a member (an empty
value is Python-falsy and means no recorded origin) — has no live member,
with cascade delete enabled and every member name resolving to a configured
calendar: the attempted operations are exactly one delete per member still
tagged for this chain and not on the origin replica; the attempted deletes
and the completion of the loop do not depend on which delete calls fail, a
failing delete is logged with its replica name, each matching member is
deleted exactly once (given distinct member names and calendar ids), and no
delete ever targets the origin replica calendar. -/
theorem claim_C3_cascade_correctness :
    ∀ (gw : Gateway) (cfg : Config) (calendars : List Calendar) (chainId : String)
      (items : List (String × Event)) (o : String),
      items.findSome? (fun p => p.2.meta.origin) = some o →
      o ≠ "" →
      items.any (fun p => p.1 == o) = false →
      cfg.sync_delete = true →
      (∀ p ∈ items, (calendars.find? (fun c => c.name == p.1)).isSome = true) →
      ((perform_safe_delete gw calendars chainId items cfg).tomb = true ∧
       (perform_safe_delete gw calendars chainId items cfg).ok = true ∧
       (perform_safe_delete gw calendars chainId items cfg).ops =
         cascade_deletes calendars chainId o items ∧
       (∀ f, (perform_safe_delete { gw with fails := f } calendars chainId items cfg).ops =
           (perform_safe_delete gw calendars chainId items cfg).ops ∧
         (perform_safe_delete { gw with fails := f } calendars chainId items cfg).ok = true) ∧
       (∀ p ∈ items, ∀ c, calendars.find? (fun x => x.name == p.1) = some c →
         (p.2.meta.trisync == some "1" && p.2.meta.chainId == some chainId) = true →
         gw.fails (Op.delete c.calendar_id p.2.id) = true →
         ("Delete failed on " ++ p.1) ∈ (perform_safe_delete gw calendars chainId items cfg).logs) ∧
       ((∀ c1 ∈ calendars, ∀ c2 ∈ calendars, c1.calendar_id = c2.calendar_id → c1.name = c2.name) →
         ((items.map Prod.fst).Nodup →
          ∀ p ∈ items, ∀ c, calendars.find? (fun x => x.name == p.1) = some c →
            (p.2.meta.trisync == some "1" && p.2.meta.chainId == some chainId) = true →
            (perform_safe_delete gw calendars chainId items cfg).ops.count
              (Op.delete c.calendar_id p.2.id) = 1) ∧
         (∀ c ∈ calendars, c.name = o → ∀ eid,
           Op.delete c.calendar_id eid ∉ (perform_safe_delete gw calendars chainId items cfg).ops))) := by
  intro gw cfg calendars chainId items o h1 ho h2 hs hres
  have hob : (o == "") = false := by
    simpa using ho
  have hmem_false : ∀ p ∈ items, (p.1 == o) = false := by
    intro p hp
    have := List.any_eq_false.mp h2 p hp
    simpa using this
  have hsd : perform_safe_delete gw calendars chainId items cfg =
      { tomb := true, ops := (delete_loop gw calendars chainId o items).1
        logs := (delete_loop gw calendars chainId o items).2.1
        ok := (delete_loop gw calendars chainId o items).2.2 } := by
    simp [perform_safe_delete, h1, hob, h2, hs]
  have hspec := delete_loop_spec gw calendars chainId o items hres
  refine ⟨by rw [hsd], by rw [hsd]; exact hspec.2, by rw [hsd]; exact hspec.1, ?_, ?_, ?_⟩
  · intro f
    have hsd' : perform_safe_delete { gw with fails := f } calendars chainId items cfg =
        { tomb := true, ops := (delete_loop { gw with fails := f } calendars chainId o items).1
          logs := (delete_loop { gw with fails := f } calendars chainId o items).2.1
          ok := (delete_loop { gw with fails := f } calendars chainId o items).2.2 } := by
      simp [perform_safe_delete, h1, hob, h2, hs]
    have hspec' := delete_loop_spec { gw with fails := f } calendars chainId o items hres
    constructor
    · rw [hsd, hsd']; exact hspec'.1.trans hspec.1.symm
    · rw [hsd']; exact hspec'.2
  · intro p hp c hc hm hfl
    rw [hsd]
    exact delete_loop_fail_log gw calendars chainId o items hres p hp
      (hmem_false p hp) c hc hm hfl
  · intro hinj
    constructor
    · intro hnd p hp c hc hm
      rw [hsd]
      show (delete_loop gw calendars chainId o items).1.count (Op.delete c.calendar_id p.2.id) = 1
      rw [hspec.1]
      exact cascade_deletes_count calendars chainId o hinj items hnd p hp c hc
        (hmem_false p hp) hm
    · intro c hcmem hcname eid hmem
      rw [hsd] at hmem
      have hmem2 : Op.delete c.calendar_id eid ∈ cascade_deletes calendars chainId o items := by
        rw [← hspec.1]; exact hmem
      obtain ⟨p, hp, ho, c', hc', _, heq⟩ :=
        (cascade_deletes_mem calendars chainId o items _).mp hmem2
      have hcal : c.calendar_id = c'.calendar_id ∧ eid = p.2.id := by
        simpa [Op.delete.injEq] using heq
      have hname : c.name = c'.name :=
        hinj c hcmem c' (List.mem_of_find?_eq_some hc') hcal.1
      have h2n : c'.name = p.1 := by
        have := List.find?_some hc'; simpa using this
      have : (p.1 == o) = true := by
        rw [← h2n, ← hname, hcname]; exact beq_self_eq_true o
      rw [this] at ho
      exact absurd ho (by simp)

/-- C3 witness: on the concrete tombstoned chain with cascade enabled, the
attempted operations are exactly the specified cascade deletes and the loop
completes. -/
theorem claim_C3_witness :
    (perform_safe_delete gwOk [calA, calB] "cid1" items2 cfgD).tomb = true ∧
    (perform_safe_delete gwOk [calA, calB] "cid1" items2 cfgD).ok = true ∧
    (perform_safe_delete gwOk [calA, calB] "cid1" items2 cfgD).ops =
      cascade_deletes [calA, calB] "cid1" "A" items2 := by
  have h := claim_C3_cascade_correctness gwOk cfgD [calA, calB] "cid1" items2 "A"
    (by decide) (by decide) (by decide) rfl (by decide)
  exact ⟨h.1, h.2.1, h.2.2.1⟩

/-- C4 counterexample: on a concrete chain whose only member fails its
re-fetch (getEvent raises not-found), the refresh loop does not drop the
member: it is retained with its stale snapshot, contradicting the claim that
a member whose re-fetch fails is dropped from the membership for this
pass. -/
theorem claim_C4_cex :
    gwOk.getEvent calA.calendar_id evStale.id = none ∧
    (refresh_items gwOk [calA] [("A", evStale)]).1 = [("A", evStale)] ∧
    (refresh_items gwOk [calA] [("A", evStale)]).1 ≠ [] := by decide

/-- C4 amended: every member is re-fetched by id from its replica; a member
whose re-fetch succeeds is replaced by the fresh copy, but a member whose
re-fetch fails (not-found included) is retained with its stale snapshot
rather than dropped. -/
theorem claim_C4_refresh_keeps_stale :
    ∀ (gw : Gateway) (calendars : List Calendar) (items : List (String × Event)),
      (∀ p ∈ items, (calendars.find? (fun c => c.name == p.1)).isSome = true) →
      refresh_items gw calendars items = (refresh_spec gw calendars items, true) := by
  intro gw calendars items h
  induction items with
  | nil => rfl
  | cons p rest ih =>
    have hp := h p (List.mem_cons_self p rest)
    obtain ⟨c, hc⟩ := Option.isSome_iff_exists.mp hp
    have hrest := ih (fun q hq => h q (List.mem_cons_of_mem p hq))
    simp [refresh_items, refresh_spec, hc, hrest]

/-- C4 witness: evaluating the amended statement on the concrete one-member
chain whose re-fetch fails. -/
theorem claim_C4_witness :
    refresh_items gwOk [calA] [("A", evStale)] = (refresh_spec gwOk [calA] [("A", evStale)], true) :=
  claim_C4_refresh_keeps_stale gwOk [calA] [("A", evStale)] (by decide)

/-- C6 counterexample: a chain whose single member is the propagation source
itself still receives a write: the source event sSrc has visibility public,
the resolved policy is private, and reconciliation issues a visibility-forcing
update against the source event, contradicting the claim that no write at all
is performed on the replica holding the source. -/
theorem claim_C6_cex :
    pick_source [("A", sSrc)] = some ("A", sSrc) ∧
    gw6.findByChain calA.calendar_id "cid1" = some sSrc ∧
    (reconcile_chain gw6 cfg0 [calA] "cid1" [("A", sSrc)]).ops =
      [Op.update "cA" "s1" { sSrc with visibility := some "private" }] ∧
    (reconcile_chain gw6 cfg0 [calA] "cid1" [("A", sSrc)]).ops ≠ [] := by decide

/-- C6 amended: when a replica already holds the propagation source itself,
no content update is issued (the field diff is empty); but the unconditional
visibility enforcement still applies to the source: if its visibility already
equals the resolved policy the step is a true no-op, otherwise exactly one
visibility-forcing update is issued against the source event. -/
theorem claim_C6_source_noop_except_visibility :
    ∀ (gw : Gateway) (cfg : Config) (chainId sn : String) (se : Event) (c : Calendar),
      gw.findByChain c.calendar_id chainId = some se →
      ((se.visibility = some (desired_copy_visibility_for c cfg) →
        reconcileOne gw cfg chainId sn se c =
          { final := some se, ops := [], logs := [], ok := true }) ∧
       (se.visibility ≠ some (desired_copy_visibility_for c cfg) →
        (reconcileOne gw cfg chainId sn se c).ops =
          [Op.update c.calendar_id se.id
            { se with visibility := some (desired_copy_visibility_for c cfg) }])) := by
  intro gw cfg chainId sn se c hf
  have hu := update_if_diff_eq_self gw c.calendar_id se cfg
  constructor
  · intro hv
    have hb : (se.visibility != some (desired_copy_visibility_for c cfg)) = false := by
      simp [hv]
    simp [reconcileOne, hf, hu, hb]
  · intro hv
    have hb : (se.visibility != some (desired_copy_visibility_for c cfg)) = true := by
      simp only [bne_iff_ne, ne_eq]; exact hv
    cases hfl : gw.fails (Op.update c.calendar_id se.id
        { se with visibility := some (desired_copy_visibility_for c cfg) }) <;>
      simp [reconcileOne, hf, hu, hb, hfl]

/-- C6 witness: on a concrete chain whose sole member is the source and whose
visibility already equals the resolved policy, the per-replica step is a
no-op. -/
theorem claim_C6_witness :
    reconcileOne gw6p cfg0 "cid1" "A" sPriv calA =
      { final := some sPriv, ops := [], logs := [], ok := true } :=
  (claim_C6_source_noop_except_visibility gw6p cfg0 "cid1" "A" sPriv calA (by decide)).1
    (by decide)

/-- Helper: the create-and-force-visibility sequence attempts no patch. -/
theorem create_and_force_vis_no_patch (gw : Gateway) (cfg : Config)
    (originName chainId : String) (sourceEvent : Event) (c : Calendar) :
    ∀ op ∈ (create_and_force_vis gw cfg originName chainId sourceEvent c).2.1,
      op.isPatch = false := by
  intro op h
  simp only [create_and_force_vis] at h
  split at h
  · simp at h; subst h; rfl
  · split at h
    · split at h
      · simp at h; rcases h with h | h <;> subst h <;> rfl
      · simp at h; rcases h with h | h <;> subst h <;> rfl
    · simp at h; subst h; rfl

/-- Helper: the create-and-force-visibility sequence always attempts the
insert of the clone first. -/
theorem create_and_force_vis_ops_head (gw : Gateway) (cfg : Config)
    (originName chainId : String) (sourceEvent : Event) (c : Calendar) :
    ∃ t, (create_and_force_vis gw cfg originName chainId sourceEvent c).2.1 =
      Op.insert c.calendar_id (create_copy_body cfg originName chainId sourceEvent) :: t := by
  simp only [create_and_force_vis]
  split
  · exact ⟨[], rfl⟩
  · split
    · split
      · exact ⟨_, rfl⟩
      · exact ⟨_, rfl⟩
    · exact ⟨[], rfl⟩

/-- Helper: the bootstrap mirror loop attempts no patch. -/
theorem bootstrap_mirrors_no_patch (gw : Gateway) (cfg : Config)
    (srcName chainId : String) (ev : Event) :
    ∀ cals : List Calendar,
      ∀ op ∈ (bootstrap_mirrors gw cfg srcName chainId ev cals).1, op.isPatch = false := by
  intro cals
  induction cals with
  | nil => intro op h; simp [bootstrap_mirrors] at h
  | cons c cs ih =>
    intro op h
    simp only [bootstrap_mirrors] at h
    split at h
    · exact ih op h
    · split at h
      · exact ih op h
      · rw [List.mem_append] at h
        rcases h with h | h
        · exact create_and_force_vis_no_patch gw cfg srcName chainId ev c op h
        · exact ih op h

/-- Helper: for every calendar other than the source replica on which the
chain query finds nothing, the bootstrap mirror loop attempts the insert of
the clone. -/
theorem bootstrap_mirrors_insert_mem (gw : Gateway) (cfg : Config)
    (srcName chainId : String) (ev : Event) :
    ∀ cals : List Calendar, ∀ c ∈ cals, (c.name == srcName) = false →
      gw.findByChain c.calendar_id chainId = none →
      Op.insert c.calendar_id (create_copy_body cfg srcName chainId ev) ∈
        (bootstrap_mirrors gw cfg srcName chainId ev cals).1 := by
  intro cals
  induction cals with
  | nil => intro c hc; simp at hc
  | cons d ds ih =>
    intro c hc hname hfind
    rcases List.mem_cons.mp hc with h | h
    · subst h
      obtain ⟨t, ht⟩ := create_and_force_vis_ops_head gw cfg srcName chainId ev c
      simp [bootstrap_mirrors, hname, hfind, ht]
    · have htail := ih c h hname hfind
      cases hd : (d.name == srcName) with
      | true => simpa [bootstrap_mirrors, hd] using htail
      | false =>
        cases hfd : gw.findByChain d.calendar_id chainId with
        | some x => simpa [bootstrap_mirrors, hd, hfd] using htail
        | none =>
          simp only [bootstrap_mirrors, hd, hfd]
          simp only [Bool.false_eq_true, if_false, List.mem_append]
          exact Or.inr htail

/-- C5 counterexample: a concrete untracked fromGmail candidate is still used
to seed its chain: the bootstrap step appends it to the chain map under its
chain id and materializes a mirror for it on replica B (an insert is
attempted), contradicting the claim that no chain is seeded with it as origin
and no mirrors are materialized from it. -/
theorem claim_C5_cex :
    (bootstrap_candidate gwOk cfg0 [calA, calB] sha1stub "A" evG).ops =
      [Op.insert "cB" (create_copy_body cfg0 "A" (compute_chain_id sha1stub "A" "g1") evG)] ∧
    (bootstrap_candidate gwOk cfg0 [calA, calB] sha1stub "A" evG).entry = ("A", evG) ∧
    (bootstrap_candidate gwOk cfg0 [calA, calB] sha1stub "A" evG).ops.any Op.isInsert = true := by
  decide

/-- C5 amended: for a fromGmail candidate the metadata tag write is skipped
with a log line and is not fatal (no patch is attempted, the source object
keeps its metadata, so it stays untracked and is re-evaluated as a Candidate
next pass); however the chain IS seeded with it this pass: the candidate is
appended to the chain map under its chain id and a mirror insert is attempted
on every other replica where the chain query finds nothing. -/
theorem claim_C5_fromGmail_still_seeds :
    ∀ (gw : Gateway) (cfg : Config) (calendars : List Calendar)
      (sha1hex : String → String) (srcName : String) (ev : Event),
      (ev.eventType.getD "") = "fromGmail" →
      ((bootstrap_candidate gw cfg calendars sha1hex srcName ev).taggedEv = ev ∧
       (bootstrap_candidate gw cfg calendars sha1hex srcName ev).entry = (srcName, ev) ∧
       (∀ op ∈ (bootstrap_candidate gw cfg calendars sha1hex srcName ev).ops,
         op.isPatch = false) ∧
       ((calendars.find? (fun c => c.name == srcName)).isSome = true →
         ("Note: fromGmail event on " ++ srcName ++ ", skipping patch") ∈
           (bootstrap_candidate gw cfg calendars sha1hex srcName ev).logs) ∧
       (∀ c ∈ calendars, (c.name == srcName) = false →
         gw.findByChain c.calendar_id (compute_chain_id sha1hex srcName ev.id) = none →
         Op.insert c.calendar_id
           (create_copy_body cfg srcName (compute_chain_id sha1hex srcName ev.id) ev) ∈
           (bootstrap_candidate gw cfg calendars sha1hex srcName ev).ops) ∧
       (ev.meta.trisync ≠ some "1" →
         ∀ cfg2 px cid,
           classify_event (bootstrap_candidate gw cfg calendars sha1hex srcName ev).taggedEv
             cfg2 px ≠ Verdict.tracked cid)) := by
  intro gw cfg calendars sha1hex srcName ev hG
  have hb : ((ev.eventType.getD "") != "fromGmail") = false := by simp [hG]
  have htag : (bootstrap_candidate gw cfg calendars sha1hex srcName ev).taggedEv = ev ∧
      (bootstrap_candidate gw cfg calendars sha1hex srcName ev).entry = (srcName, ev) ∧
      (bootstrap_candidate gw cfg calendars sha1hex srcName ev).ops =
        (bootstrap_mirrors gw cfg srcName (compute_chain_id sha1hex srcName ev.id)
          ev calendars).1 ∧
      ((calendars.find? (fun c => c.name == srcName)).isSome = true →
        ("Note: fromGmail event on " ++ srcName ++ ", skipping patch") ∈
          (bootstrap_candidate gw cfg calendars sha1hex srcName ev).logs) := by
    cases hfind : calendars.find? (fun c => c.name == srcName) with
    | none =>
      refine ⟨?_, ?_, ?_, ?_⟩ <;> simp [bootstrap_candidate, hfind, hb]
    | some c =>
      refine ⟨?_, ?_, ?_, ?_⟩ <;> simp [bootstrap_candidate, hfind, hb]
  refine ⟨htag.1, htag.2.1, ?_, htag.2.2.2, ?_, ?_⟩
  · intro op hop
    rw [htag.2.2.1] at hop
    exact bootstrap_mirrors_no_patch gw cfg srcName _ ev calendars op hop
  · intro c hc hname hfind
    rw [htag.2.2.1]
    exact bootstrap_mirrors_insert_mem gw cfg srcName _ ev calendars c hc hname hfind
  · intro hT cfg2 px cid
    rw [htag.1]
    cases ht : ev.meta.trisync with
    | none => cases hcid : ev.meta.chainId <;> simp [classify_event, ht, hcid] <;> split <;> simp
    | some t =>
      cases hcid : ev.meta.chainId with
      | none => simp [classify_event, ht, hcid]; split <;> simp
      | some cid2 =>
        have ht1 : ¬ t = "1" := by
          intro h; exact hT (by rw [ht, h])
        simp [classify_event, ht, hcid, ht1]
        split <;> simp

/-- C5 witness: evaluating the amended statement on the concrete fromGmail
candidate: the source object is unchanged and the mirror insert on replica B
is attempted. -/
theorem claim_C5_witness :
    (bootstrap_candidate gwOk cfg0 [calA, calB] sha1stub "A" evG).taggedEv = evG ∧
    Op.insert calB.calendar_id
      (create_copy_body cfg0 "A" (compute_chain_id sha1stub "A" evG.id) evG) ∈
      (bootstrap_candidate gwOk cfg0 [calA, calB] sha1stub "A" evG).ops := by
  have h := claim_C5_fromGmail_still_seeds gwOk cfg0 [calA, calB] sha1stub "A" evG (by decide)
  exact ⟨h.1, h.2.2.2.2.1 calB (by decide) (by decide) (by decide)⟩

/-- C7 counterexample: a failing visibility-enforcement update on an existing
member is not caught: on a concrete single-chain run where exactly that call
fails on replica A, the pass aborts, replica B of the same chain is never
reconciled (its operations are absent), and the run never reaches its
completion marker, contradicting the claim that every per-item failure is
caught and the run still completes. -/
theorem claim_C7_cex :
    gw7.fails (Op.update "cA" "s1" forced7) = true ∧
    (run_chains gw7 cfg0 [calA, calB] [("cid1", [("A", sSrc)])]).1 =
      [Op.update "cA" "s1" forced7] ∧
    (run_chains gw7 cfg0 [calA, calB] [("cid1", [("A", sSrc)])]).2 = false := by
  decide

/-- C7 amended: per-item failures of the insert path (insert and its
visibility force), of the content update inside update_if_diff, and of the
cascade deletes are caught and logged and do not abort the surrounding loops;
but the visibility-enforcement update on an existing member is outside every
try: the per-replica step aborts exactly when that call is needed and
fails. -/
theorem claim_C7_error_handling :
    ((∀ (gw : Gateway) (cfg : Config) (chainId sn : String) (se : Event) (c : Calendar),
        gw.findByChain c.calendar_id chainId = none →
        (reconcileOne gw cfg chainId sn se c).ok = true) ∧
     (∀ (gw : Gateway) (calId : String) (existing : Event) (sr : CanonicalEvent) (cfg : Config),
        update_changed existing sr = true →
        gw.fails (Op.update calId existing.id (update_desired existing sr cfg)) = true →
        update_if_diff gw calId existing sr cfg =
          { ev := existing, changed := false
            ops := [Op.update calId existing.id (update_desired existing sr cfg)]
            logs := ["Update failed on " ++ calId] }) ∧
     (∀ (gw : Gateway) (f : Op → Bool) (calendars : List Calendar) (chainId o : String)
        (items : List (String × Event)),
        (∀ p ∈ items, (calendars.find? (fun c => c.name == p.1)).isSome = true) →
        (delete_loop { gw with fails := f } calendars chainId o items).1 =
          (delete_loop gw calendars chainId o items).1 ∧
        (delete_loop { gw with fails := f } calendars chainId o items).2.2 = true) ∧
     (∀ (gw : Gateway) (cfg : Config) (chainId sn : String) (se : Event) (c : Calendar)
        (targetEv : Event),
        gw.findByChain c.calendar_id chainId = some targetEv →
        ((reconcileOne gw cfg chainId sn se c).ok = false ↔
          ((update_if_diff gw c.calendar_id targetEv (canonical_event_dict se) cfg).ev.visibility
              ≠ some (desired_copy_visibility_for c cfg) ∧
           gw.fails (Op.update c.calendar_id
             (update_if_diff gw c.calendar_id targetEv (canonical_event_dict se) cfg).ev.id
             { (update_if_diff gw c.calendar_id targetEv (canonical_event_dict se) cfg).ev with
                visibility := some (desired_copy_visibility_for c cfg) }) = true)))) := by
  refine ⟨?_, ?_, ?_, ?_⟩
  · intro gw cfg chainId sn se c hf
    cases h2 : (create_and_force_vis gw cfg ((se.meta.origin).getD sn) chainId se c).2.2 <;>
      simp [reconcileOne, hf, h2]
  · intro gw calId existing sr cfg h1 h2
    simp [update_if_diff, h1, h2]
  · intro gw f calendars chainId o items hres
    have ha := delete_loop_spec { gw with fails := f } calendars chainId o items hres
    have hb := delete_loop_spec gw calendars chainId o items hres
    exact ⟨ha.1.trans hb.1.symm, ha.2⟩
  · intro gw cfg chainId sn se c targetEv hf
    by_cases hv : (update_if_diff gw c.calendar_id targetEv (canonical_event_dict se) cfg).ev.visibility
        = some (desired_copy_visibility_for c cfg)
    · have hb : ((update_if_diff gw c.calendar_id targetEv (canonical_event_dict se) cfg).ev.visibility
          != some (desired_copy_visibility_for c cfg)) = false := by simp [hv]
      simp [reconcileOne, hf, hb, hv]
    · have hb : ((update_if_diff gw c.calendar_id targetEv (canonical_event_dict se) cfg).ev.visibility
          != some (desired_copy_visibility_for c cfg)) = true := by
        simp only [bne_iff_ne, ne_eq]; exact hv
      cases hfl : gw.fails (Op.update c.calendar_id
          (update_if_diff gw c.calendar_id targetEv (canonical_event_dict se) cfg).ev.id
          { (update_if_diff gw c.calendar_id targetEv (canonical_event_dict se) cfg).ev with
             visibility := some (desired_copy_visibility_for c cfg) }) <;>
        simp [reconcileOne, hf, hb, hfl, hv]

/-- C7 witness: with an all-succeeding gateway on a replica that lacks the
member, the create path finishes without an uncaught exception; and a
concrete failing content update inside update_if_diff is caught and
logged. -/
theorem claim_C7_witness :
    (reconcileOne gwOk cfg0 "cid1" "A" sSrc calB).ok = true ∧
    (delete_loop { gwOk with fails := fun _ => true } [calA, calB] "cid1" "A" items2).2.2
      = true := by
  have h := claim_C7_error_handling
  exact ⟨h.1 gwOk cfg0 "cid1" "A" sSrc calB (by decide),
    (h.2.2.1 gwOk (fun _ => true) [calA, calB] "cid1" "A" items2 (by decide)).2⟩

end GcalTrisync
